import Mathlib

/-
  Shallow embedding of `derives/src/pagination.rs` from Geriano/lighter-common.

  The derive macro `PaginationRequest::expand` scans the fields of a struct,
  collects the orderable field identifiers (capitalized), and produces a
  request type whose accessors normalize page/limit/search/sort/order.
  We embed the field scan, the identifier formatting utility `capitalize`,
  and the generated accessors, and prove the spec's claims about them.
-/

namespace Pagination

/-- A field attribute as the macro sees it.  `path` models `attr.path()`
    (which in syn 2 is defined as `attr.meta.path()`, so the two calls in the
    source read the same value); `tokens` models the tokens inside the
    parentheses of `#[order(default)]` (never inspected by the source). -/
structure Attr where
  path : String
  tokens : List String
  deriving DecidableEq

/-- A named struct field with its attributes. -/
structure Field where
  name : String
  attrs : List Attr
  deriving DecidableEq

/-- Mirrors `attr.path().is_ident("order")` (detection of `#[order]`). -/
def attrIsOrder (a : Attr) : Bool := a.path == "order"

/-- Mirrors the source's `#[order(default)]` check:
    `if !attr.path().is_ident("order") { return false }` then
    `attr.meta.path().is_ident("default")`.  Since `Attribute::path()`
    delegates to `meta.path()`, both reads see the same path. -/
def attrIsOrderDefault (a : Attr) : Bool :=
  if !(a.path == "order") then false
  else a.path == "default"

/-- Mirrors `field.attrs.iter().any(|attr| attr.path().is_ident("order"))`. -/
def fieldOrderable (f : Field) : Bool := f.attrs.any attrIsOrder

/-- Mirrors the source's `is_default` computation for a field. -/
def fieldIsDefault (f : Field) : Bool := f.attrs.any attrIsOrderDefault

/-- The spec-level notion of a field being marked `is_default_order`:
    it carries an `#[order(default)]` attribute (an `order` attribute whose
    parenthesized tokens contain `default`).  Used to state claims. -/
def hasDefaultMark (f : Field) : Bool :=
  f.attrs.any (fun a => a.path == "order" && a.tokens.contains "default")

/-- No field of the schema is marked `is_default_order`. -/
def noDefaultMark (fields : List Field) : Bool :=
  fields.all (fun f => !hasDefaultMark f)

/-- No field of the schema is orderable. -/
def noOrderable (fields : List Field) : Bool :=
  fields.all (fun f => !fieldOrderable f)

/-- The shape of `syn::Data`: the derive input is a struct (with fields),
    an enum, or a union. -/
inductive Data where
  | dstruct (fields : List Field)
  | denum
  | dunion

/-- Uppercase the first character of a segment, keep the rest:
    mirrors `first.to_uppercase().chain(chars)` (the identifiers involved are
    ASCII, where `char::to_uppercase` yields the single ASCII uppercase). -/
def capFirst : List Char → List Char
  | [] => []
  | c :: cs => Char.toUpper c :: cs

/-- Mirrors `input.split('_')`: left-to-right split on underscore, keeping
    empty segments (so `""` splits to `[""]` and `"_"` to `["", ""]`). -/
def splitUnderscore : List Char → List (List Char)
  | [] => [[]]
  | c :: cs =>
    match splitUnderscore cs with
    | [] => [[]]
    | w :: ws => if c = '_' then [] :: w :: ws else (c :: w) :: ws

/-- The body of `fn capitalize`: split on underscore, capitalize each
    segment (empty segments map to the empty string), concatenate. -/
def capitalizeL (l : List Char) : List Char :=
  ((splitUnderscore l).map capFirst).flatten

/-- `fn capitalize<T: ToString>(input: T) -> String` on the field name. -/
def capitalize (s : String) : String := ⟨capitalizeL s.data⟩

/-- The spec's description of `capitalize`: split on underscore, DROP empty
    segments, uppercase the first character of each remaining segment,
    concatenate without separators. -/
def capitalizeSpecL (l : List Char) : List Char :=
  (((splitUnderscore l).filter (fun w => !w.isEmpty)).map capFirst).flatten

/-- String wrapper of `capitalizeSpecL`. -/
def capitalizeSpec (s : String) : String := ⟨capitalizeSpecL s.data⟩

/-- Mirrors `str::eq_ignore_ascii_case`: compare after ASCII-lowercasing
    every character (`Char.toLower` lowercases exactly the ASCII range). -/
def eqIgnoreAsciiCase (a b : String) : Bool :=
  a.data.map Char.toLower == b.data.map Char.toLower

/-- One iteration of the field loop in `PaginationRequest::expand`
    (state: the `orderables` vector and the `default` option). -/
def expandStep (st : List String × Option String) (field : Field) :
    List String × Option String :=
  let orderable := fieldOrderable field
  let is_default := fieldIsDefault field
  if orderable then
    let name := capitalize field.name
    if eqIgnoreAsciiCase name "CreatedAt" then st
    else
      let orderables := st.1 ++ [name]
      let dflt := if is_default then some name else st.2
      (orderables, dflt)
  else st

/-- The field scan of `PaginationRequest::expand`: `orderables` starts with
    the synthetic `CreatedAt`, `default` starts as `None`; only a struct's
    fields are iterated. -/
def expandOrderables : Data → List String × Option String
  | .dstruct fields => fields.foldl expandStep (["CreatedAt"], none)
  | .denum => (["CreatedAt"], none)
  | .dunion => (["CreatedAt"], none)

/-- The resolved `OrderableFieldSet` (the `orderables` vector). -/
def resolveSet (d : Data) : List String := (expandOrderables d).1

/-- The resolved default: `default.unwrap_or_else(|| orderables[0].clone())`.
    `orderables` is never empty (it starts with the synthetic `CreatedAt`),
    so `headD ""` is a total rendering of `orderables[0]`. -/
def resolveDefault (d : Data) : String :=
  match (expandOrderables d).2 with
  | some n => n
  | none => (expandOrderables d).1.headD ""

/-- Declarative description of the appended entries: the capitalized names of
    the orderable fields, in declaration order, excluding those that
    case-insensitively equal `CreatedAt`. -/
def survivors (fields : List Field) : List String :=
  (fields.filter
    (fun f => fieldOrderable f && !eqIgnoreAsciiCase (capitalize f.name) "CreatedAt")).map
    (fun f => capitalize f.name)

/-- The generated sort-direction enum (`Asc`, `Desc`). -/
inductive SortDir where
  | asc
  | desc
  deriving DecidableEq

/-- The `sea_orm::Order` values the generated `sort()` accessor returns. -/
inductive SeaOrder where
  | asc
  | desc
  deriving DecidableEq

/-- The generated request descriptor: five optional raw query inputs.
    `u64` values are modelled as `Nat` (with explicit wrapping modulo 2^64
    where the source's arithmetic can wrap); the order field is modelled by
    its identifier string. -/
structure Req where
  page : Option Nat
  limit : Option Nat
  search : Option String
  sort : Option SortDir
  order : Option String
  deriving DecidableEq

/-- 2^64, the modulus of `u64` arithmetic. -/
def u64Mod : Nat := 2 ^ 64

/-- `pub fn page(&self) -> u64 { self.page.unwrap_or(1) }` -/
def pageAcc (r : Req) : Nat := r.page.getD 1

/-- `pub fn limit(&self) -> u64`: default 10, clamp above 1000. -/
def limitAcc (r : Req) : Nat :=
  let l := r.limit.getD 10
  if l > 1000 then 1000 else l

/-- `pub fn offset(&self) -> u64 { (self.page() - 1) * self.limit() }` in
    `u64` wrapping arithmetic: `p - 1` is `(p + 2^64 - 1) % 2^64` and the
    product is reduced modulo 2^64 (release-build semantics; the spec notes
    the `page() == 0` underflow produces a huge offset). -/
def offsetAcc (r : Req) : Nat :=
  ((pageAcc r + (u64Mod - 1)) % u64Mod) * limitAcc r % u64Mod

/-- `pub fn search(&self) -> Option<String> { self.search.clone() }` -/
def searchAcc (r : Req) : Option String := r.search

/-- `pub fn sort(&self) -> sea_orm::Order`: default `Desc`, then map
    `Asc => Order::Asc, Desc => Order::Desc`. -/
def sortAcc (r : Req) : SeaOrder :=
  match r.sort.getD SortDir.desc with
  | .asc => .asc
  | .desc => .desc

/-- `pub fn order(&self) -> Order { self.order.clone().unwrap_or_default() }`:
    the generated `Default` impl returns the resolved default identifier. -/
def orderAcc (dflt : String) (r : Req) : String := r.order.getD dflt

/-- A request with no query parameters present. -/
def emptyReq : Req := ⟨none, none, none, none, none⟩

/-- Raw `page` values are `u64`-representable. -/
def WfReq (r : Req) : Prop := ∀ p, r.page = some p → p < u64Mod

/-- `title` field with `#[order]`. -/
def titleField : Field := ⟨"title", [⟨"order", []⟩]⟩

/-- `published_at` field with `#[order(default)]`. -/
def publishedAtField : Field := ⟨"published_at", [⟨"order", ["default"]⟩]⟩

/-- Scenario D schema: `[title (orderable), published_at (orderable, default)]`. -/
def scenarioDFields : List Field := [titleField, publishedAtField]

/-- A `created_at` field with `#[order(default)]`. -/
def createdAtField : Field := ⟨"created_at", [⟨"order", ["default"]⟩]⟩

/-- `foo_bar` field with `#[order]`. -/
def fooBarField : Field := ⟨"foo_bar", [⟨"order", []⟩]⟩

/-- `foo__bar` field with `#[order]`: capitalizes to the same identifier as
    `foo_bar` (the empty middle segment is dropped). -/
def fooBar2Field : Field := ⟨"foo__bar", [⟨"order", []⟩]⟩

/-- Schema whose two distinct field names collide after capitalization. -/
def collideFields : List Field := [fooBarField, fooBar2Field]

/-- Schema with a single orderable field and no default mark. -/
def onlyTitleFields : List Field := [titleField]

/-- A plain field with no attributes (not orderable). -/
def bodyField : Field := ⟨"body", []⟩

end Pagination

namespace Pagination

theorem attrIsOrderDefault_false (a : Attr) : attrIsOrderDefault a = false := by
  unfold attrIsOrderDefault
  by_cases h : a.path = "order"
  · rw [h]
    decide
  · have hb : (a.path == "order") = false := beq_eq_false_iff_ne.mpr h
    simp [hb]

theorem fieldIsDefault_false (f : Field) : fieldIsDefault f = false := by
  unfold fieldIsDefault
  simp only [List.any_eq_false]
  intro a _
  simp [attrIsOrderDefault_false a]

theorem expandStep_snd (st : List String × Option String) (f : Field) :
    (expandStep st f).2 = st.2 := by
  unfold expandStep
  simp only [fieldIsDefault_false f]
  split
  · split
    · rfl
    · simp
  · rfl

theorem foldl_expandStep_snd (fields : List Field) (st : List String × Option String) :
    (fields.foldl expandStep st).2 = st.2 := by
  induction fields generalizing st with
  | nil => rfl
  | cons f fs ih =>
    simp only [List.foldl_cons]
    rw [ih, expandStep_snd]

theorem expandStep_fst (st : List String × Option String) (f : Field) :
    (expandStep st f).1 =
      st.1 ++ (if fieldOrderable f && !eqIgnoreAsciiCase (capitalize f.name) "CreatedAt"
               then [capitalize f.name] else []) := by
  unfold expandStep
  cases hO : fieldOrderable f <;>
    cases hE : eqIgnoreAsciiCase (capitalize f.name) "CreatedAt" <;>
      simp [hO, hE]

theorem survivors_nil : survivors [] = [] := rfl

theorem survivors_cons (f : Field) (fs : List Field) :
    survivors (f :: fs) =
      (if fieldOrderable f && !eqIgnoreAsciiCase (capitalize f.name) "CreatedAt"
       then [capitalize f.name] else []) ++ survivors fs := by
  unfold survivors
  rw [List.filter_cons]
  split
  · simp
  · simp

theorem foldl_expandStep_fst (fields : List Field) (st : List String × Option String) :
    (fields.foldl expandStep st).1 = st.1 ++ survivors fields := by
  induction fields generalizing st with
  | nil => simp [survivors_nil]
  | cons f fs ih =>
    simp only [List.foldl_cons]
    rw [ih, expandStep_fst, survivors_cons, List.append_assoc]

theorem resolveSet_struct (fields : List Field) :
    resolveSet (.dstruct fields) = "CreatedAt" :: survivors fields := by
  unfold resolveSet expandOrderables
  rw [foldl_expandStep_fst]
  rfl

theorem resolveDefault_eq_createdAt (d : Data) : resolveDefault d = "CreatedAt" := by
  unfold resolveDefault
  cases d with
  | dstruct fields =>
    simp only [expandOrderables, foldl_expandStep_snd, foldl_expandStep_fst]
    rfl
  | denum => rfl
  | dunion => rfl

theorem eqIgnoreAsciiCase_refl (s : String) : eqIgnoreAsciiCase s s = true := by
  simp [eqIgnoreAsciiCase]

theorem mem_survivors_neq (fields : List Field) (x : String) (hx : x ∈ survivors fields) :
    eqIgnoreAsciiCase x "CreatedAt" = false := by
  unfold survivors at hx
  obtain ⟨f, hf, rfl⟩ := List.mem_map.mp hx
  have := List.of_mem_filter hf
  simp only [Bool.and_eq_true, Bool.not_eq_true'] at this
  exact this.2

theorem createdAt_not_mem_survivors (fields : List Field) :
    "CreatedAt" ∉ survivors fields := by
  intro h
  have h1 := mem_survivors_neq fields "CreatedAt" h
  rw [eqIgnoreAsciiCase_refl] at h1
  exact Bool.noConfusion h1

end Pagination

namespace Pagination

theorem survivors_append (a b : List Field) :
    survivors (a ++ b) = survivors a ++ survivors b := by
  simp [survivors, List.filter_append]

theorem survivors_eq_nil (fields : List Field) (h : noOrderable fields = true) :
    survivors fields = [] := by
  induction fields with
  | nil => rfl
  | cons f fs ih =>
    unfold noOrderable at h
    rw [List.all_cons, Bool.and_eq_true] at h
    obtain ⟨h1, h2⟩ := h
    rw [Bool.not_eq_true'] at h1
    rw [survivors_cons, h1]
    simpa using ih h2

theorem flatten_map_capFirst_filter (ws : List (List Char)) :
    (ws.map capFirst).flatten =
      ((ws.filter (fun w => !w.isEmpty)).map capFirst).flatten := by
  induction ws with
  | nil => rfl
  | cons w ws ih =>
    cases w with
    | nil => simpa [List.filter_cons, capFirst] using ih
    | cons c cs => simp [List.filter_cons, capFirst, ih]

theorem capitalize_eq_spec (s : String) : capitalize s = capitalizeSpec s := by
  unfold capitalize capitalizeSpec capitalizeL capitalizeSpecL
  exact congrArg String.mk (flatten_map_capFirst_filter (splitUnderscore s.data))

end Pagination

namespace Pagination

/-- Claim C1: the spec says that when exactly one orderable field carries the
    `#[order(default)]` tag (and its identifier is not `CreatedAt`), the
    resolved default equals that field's transformed identifier — scenario D
    expects `PublishedAt`.  The code never detects the tag: its check reads
    `attr.path()` twice (syn's `Attribute::path()` is `meta.path()`), so it
    demands the same path equal both `order` and `default`.  The resolved
    default for scenario D is therefore `CreatedAt`, not `PublishedAt`. -/
theorem default_tag_never_detected :
    (∀ a : Attr, attrIsOrderDefault a = false) ∧
    (∀ f : Field, fieldIsDefault f = false) ∧
    hasDefaultMark publishedAtField = true ∧
    fieldIsDefault publishedAtField = false ∧
    capitalize "published_at" = "PublishedAt" ∧
    resolveDefault (.dstruct scenarioDFields) = "CreatedAt" ∧
    ("CreatedAt" : String) ≠ "PublishedAt" :=
  ⟨attrIsOrderDefault_false, fieldIsDefault_false, by decide, by decide,
   by decide, by decide, by decide⟩

/-- Claim C2 counterexample: `onlyTitleFields` has one orderable field
    (`title`) and no default mark, so the claim says the default must be the
    first appended orderable field `Title`, not `CreatedAt`.  The code
    resolves the default to `orderables[0]`, which is always the synthetic
    `CreatedAt`. -/
theorem no_default_fallback_cex :
    noDefaultMark onlyTitleFields = true ∧
    survivors onlyTitleFields = ["Title"] ∧
    resolveSet (.dstruct onlyTitleFields) = ["CreatedAt", "Title"] ∧
    resolveDefault (.dstruct onlyTitleFields) = "CreatedAt" ∧
    ("CreatedAt" : String) ≠ "Title" := by
  decide

/-- Claim C2 (amended): for every schema with no field marked
    `is_default_order`, the resolved default is always the synthetic
    `CreatedAt` (it is `orderables[0]`), whether or not orderable fields
    survived filtering; and for schemas with zero orderable fields the
    resolved set is exactly `[CreatedAt]`. -/
theorem no_default_fallback_amended (fields : List Field)
    (_hnd : noDefaultMark fields = true) :
    resolveDefault (.dstruct fields) = "CreatedAt" ∧
    (noOrderable fields = true → resolveSet (.dstruct fields) = ["CreatedAt"]) :=
  ⟨resolveDefault_eq_createdAt _, fun ho => by
    rw [resolveSet_struct, survivors_eq_nil fields ho]⟩

/-- Witness for the amended C2 at the schema `[bodyField]` (one plain,
    non-orderable field). -/
theorem no_default_fallback_amended_witness :
    noDefaultMark [bodyField] = true ∧
    resolveDefault (.dstruct [bodyField]) = "CreatedAt" ∧
    resolveSet (.dstruct [bodyField]) = ["CreatedAt"] :=
  ⟨by decide, (no_default_fallback_amended [bodyField] (by decide)).1,
   (no_default_fallback_amended [bodyField] (by decide)).2 (by decide)⟩

/-- Claim C3 counterexample: `foo_bar` and `foo__bar` are distinct field
    names that both capitalize to `FooBar`.  Resolution does not fail with a
    `SchemaConflict` error (the code has no error path at all): it silently
    emits both entries, and the resolved set contains duplicates. -/
theorem schema_conflict_cex :
    capitalize "foo_bar" = "FooBar" ∧
    capitalize "foo__bar" = "FooBar" ∧
    ("foo_bar" : String) ≠ "foo__bar" ∧
    resolveSet (.dstruct collideFields) = ["CreatedAt", "FooBar", "FooBar"] ∧
    ¬ (resolveSet (.dstruct collideFields)).Nodup := by
  decide

/-- Claim C3 (amended): resolution never fails; when two distinct fields
    transform to the same identifier both are emitted, so the uniqueness
    invariant only holds for schemas whose surviving transformed identifiers
    are pairwise distinct: then the resolved set has no duplicates. -/
theorem resolved_set_nodup_amended (fields : List Field)
    (h : (survivors fields).Nodup) :
    (resolveSet (.dstruct fields)).Nodup := by
  rw [resolveSet_struct]
  exact List.nodup_cons.mpr ⟨createdAt_not_mem_survivors fields, h⟩

/-- Witness for the amended C3 at scenario D's schema. -/
theorem resolved_set_nodup_amended_witness :
    (survivors scenarioDFields).Nodup ∧
    (resolveSet (.dstruct scenarioDFields)).Nodup :=
  ⟨by decide, resolved_set_nodup_amended scenarioDFields (by decide)⟩

/-- Claim C4: `limit()` defaults to 10 when the raw limit is absent; a
    present raw limit `L` is clamped to 1000 when `L > 1000` and returned
    unchanged otherwise (so raw 0 stays 0 and raw 5000 yields 1000). -/
theorem limit_clamping :
    (∀ p s so o, limitAcc ⟨p, none, s, so, o⟩ = 10) ∧
    (∀ L, 1000 < L → ∀ p s so o, limitAcc ⟨p, some L, s, so, o⟩ = 1000) ∧
    (∀ L, L ≤ 1000 → ∀ p s so o, limitAcc ⟨p, some L, s, so, o⟩ = L) ∧
    limitAcc ⟨none, some 0, none, none, none⟩ = 0 ∧
    limitAcc ⟨none, some 5000, none, none, none⟩ = 1000 := by
  refine ⟨fun p s so o => rfl, fun L hL p s so o => ?_, fun L hL p s so o => ?_,
    by decide, by decide⟩
  · unfold limitAcc
    simp only [Option.getD_some]
    split <;> omega
  · unfold limitAcc
    simp only [Option.getD_some]
    split <;> omega

/-- Witness for C4 at raw limits 5000 (clamped) and 7 (unchanged). -/
theorem limit_clamping_witness :
    limitAcc ⟨none, some 5000, none, none, none⟩ = 1000 ∧
    limitAcc ⟨none, some 7, none, none, none⟩ = 7 :=
  ⟨limit_clamping.2.1 5000 (by decide) none none none none,
   limit_clamping.2.2.1 7 (by decide) none none none none⟩

/-- Claim C5: for every `u64`-representable request with `page() >= 1`,
    `offset()` equals `(page() - 1) * limit()` (as the `u64` expression, i.e.
    reduced modulo 2^64); raw `{page: 3, limit: 20}` yields `offset() = 40`. -/
theorem offset_formula :
    (∀ r, WfReq r → 1 ≤ pageAcc r →
      offsetAcc r = (pageAcc r - 1) * limitAcc r % u64Mod) ∧
    offsetAcc ⟨some 3, some 20, none, none, none⟩ = 40 := by
  constructor
  · intro r hw h1
    have hm : u64Mod = 18446744073709551616 := by norm_num [u64Mod]
    have hp : pageAcc r < u64Mod := by
      unfold pageAcc
      cases hr : r.page with
      | none => simp [hm]
      | some p =>
        simpa using hw p hr
    have h2 : (pageAcc r + (u64Mod - 1)) % u64Mod = pageAcc r - 1 := by
      rw [hm] at hp ⊢
      omega
    unfold offsetAcc
    rw [h2]
  · decide

/-- Witness for C5 at raw `{page: 3, limit: 20}`. -/
theorem offset_formula_witness :
    offsetAcc ⟨some 3, some 20, none, none, none⟩ =
      (pageAcc ⟨some 3, some 20, none, none, none⟩ - 1) *
        limitAcc ⟨some 3, some 20, none, none, none⟩ % u64Mod :=
  offset_formula.1 ⟨some 3, some 20, none, none, none⟩
    (fun p hp => by
      simp only [Option.some.injEq] at hp
      subst hp
      norm_num [u64Mod])
    (by decide)

/-- Claim C6: a request with all five raw fields absent normalizes to
    `page() = 1`, `limit() = 10`, `offset() = 0`, `sort() = Desc`,
    `search() = None`, and `order()` equal to the schema's resolved default
    identifier. -/
theorem empty_request_defaults (d : Data) :
    pageAcc emptyReq = 1 ∧
    limitAcc emptyReq = 10 ∧
    offsetAcc emptyReq = 0 ∧
    sortAcc emptyReq = SeaOrder.desc ∧
    searchAcc emptyReq = none ∧
    orderAcc (resolveDefault d) emptyReq = resolveDefault d :=
  ⟨rfl, rfl, by decide, rfl, rfl, rfl⟩

/-- Claim C7: the resolved `OrderableFieldSet` is the synthetic `CreatedAt`
    followed by the capitalized orderable field names in declaration order,
    excluding names that case-insensitively equal `CreatedAt`; scenario D
    resolves to exactly `[CreatedAt, Title, PublishedAt]`. -/
theorem resolved_set_shape :
    (∀ fields, resolveSet (.dstruct fields) = "CreatedAt" :: survivors fields) ∧
    resolveSet (.dstruct scenarioDFields) = ["CreatedAt", "Title", "PublishedAt"] :=
  ⟨resolveSet_struct, by decide⟩

/-- Claim C8: an orderable field whose capitalized name case-insensitively
    equals `CreatedAt` is skipped entirely: resolution of a schema containing
    it (anywhere) equals resolution of the schema without it — it is not
    appended and its tag cannot influence the default — and the synthetic
    `CreatedAt` entry appears exactly once. -/
theorem created_at_field_skipped (pre post : List Field) (f : Field)
    (hO : fieldOrderable f = true)
    (hE : eqIgnoreAsciiCase (capitalize f.name) "CreatedAt" = true) :
    resolveSet (.dstruct (pre ++ f :: post)) = resolveSet (.dstruct (pre ++ post)) ∧
    resolveDefault (.dstruct (pre ++ f :: post)) =
      resolveDefault (.dstruct (pre ++ post)) ∧
    (resolveSet (.dstruct (pre ++ f :: post))).count "CreatedAt" = 1 := by
  have hset : resolveSet (.dstruct (pre ++ f :: post)) =
      resolveSet (.dstruct (pre ++ post)) := by
    rw [resolveSet_struct, resolveSet_struct, survivors_append, survivors_append,
      survivors_cons, hO, hE]
    simp
  refine ⟨hset, ?_, ?_⟩
  · rw [resolveDefault_eq_createdAt, resolveDefault_eq_createdAt]
  · rw [resolveSet_struct, List.count_cons]
    simp [List.count_eq_zero.mpr (createdAt_not_mem_survivors (pre ++ f :: post))]

/-- Witness for C8: a schema consisting of the single field
    `created_at #[order(default)]` resolves exactly like the empty schema. -/
theorem created_at_field_skipped_witness :
    resolveSet (.dstruct ([] ++ createdAtField :: [])) =
      resolveSet (.dstruct ([] ++ [])) ∧
    resolveDefault (.dstruct ([] ++ createdAtField :: [])) =
      resolveDefault (.dstruct ([] ++ [])) ∧
    (resolveSet (.dstruct ([] ++ createdAtField :: []))).count "CreatedAt" = 1 :=
  created_at_field_skipped [] [] createdAtField (by decide) (by decide)

/-- Claim C9: `capitalize` is total, agrees with the spec's description
    (split on underscore, drop empty segments, uppercase each segment's first
    character, concatenate), and satisfies the four quoted examples. -/
theorem capitalize_matches_spec :
    (∀ s, capitalize s = capitalizeSpec s) ∧
    capitalize "hello_world" = "HelloWorld" ∧
    capitalize "_hello_world_" = "HelloWorld" ∧
    capitalize "" = "" ∧
    capitalize "___" = "" :=
  ⟨capitalize_eq_spec, by decide, by decide, by decide, by decide⟩

/-- Claim C10: for a derive input that is not a struct (an enum or a union),
    no fields are scanned, so the resolved set is exactly `[CreatedAt]` and
    the default is `CreatedAt`. -/
theorem non_struct_resolution :
    resolveSet Data.denum = ["CreatedAt"] ∧
    resolveDefault Data.denum = "CreatedAt" ∧
    resolveSet Data.dunion = ["CreatedAt"] ∧
    resolveDefault Data.dunion = "CreatedAt" := by
  decide

end Pagination
